import Mathlib

/-!
Shallow embedding of the libdns-cloudns provider (provider.go).

The provider operations (`GetRecords`, `AppendRecords`, `SetRecords`,
`DeleteRecords`) are embedded as pure functions over an abstract remote
client.  Each operation returns the provider's result (`Except` models the
Go `(value, error)` pair, with `Except.error` corresponding to returning
`nil` plus a non-nil error) together with the trace of remote calls made,
in order, so that call-count and call-order properties can be stated.
-/

namespace Cloudns

/-- A DNS record, embedding the fields of `libdns.Record` used by
provider.go: `ID`, `Type`, `Name`, `Value`, `TTL` (the Go `time.Duration`
is modelled as an integer, passed through opaquely; the Go field `Type` is
named `recType` here because `Type` is a Lean keyword). -/
structure Record where
  ID : String
  recType : String
  Name : String
  Value : String
  TTL : Int
deriving Repr, DecidableEq

/-- One remote API invocation, recording the operation and its arguments
exactly as provider.go passes them to the remote client. -/
inductive RemoteCall where
  | get (zone : String)
  | add (zone recType name value : String) (ttl : Int)
  | update (zone id name value : String) (ttl : Int)
  | delete (zone id : String)
deriving Repr, DecidableEq

/-- Modelled from the spec: the Remote Record Client (the `UseClient`
client code is not part of this repository's sources; §6 of the spec gives
its consumed contract: `GetRecords`, `AddRecord`, `UpdateRecord`,
`DeleteRecord`, each returning a value or an error).  Each method is a
function of the arguments provider.go passes it. -/
structure Client where
  getRecords : String → Except String (List Record)
  addRecord : String → String → String → String → Int → Except String Record
  updateRecord : String → String → String → String → Int → Except String Record
  deleteRecord : String → String → Except String Record

instance {ε α : Type} [DecidableEq ε] [DecidableEq α] : DecidableEq (Except ε α) := fun a b =>
  match a, b with
  | .ok x, .ok y =>
    if h : x = y then .isTrue (by rw [h]) else .isFalse (by intro he; cases he; exact h rfl)
  | .error x, .error y =>
    if h : x = y then .isTrue (by rw [h]) else .isFalse (by intro he; cases he; exact h rfl)
  | .ok _, .error _ => .isFalse (by intro he; cases he)
  | .error _, .ok _ => .isFalse (by intro he; cases he)

/-- Go `strings.HasSuffix s suffix`. -/
def goHasSuffix (s suf : String) : Bool :=
  suf.data.isSuffixOf s.data

/-- Go `strings.TrimSuffix s suffix`: removes one trailing occurrence of
`suffix` when present. -/
def goTrimSuffix (s suf : String) : String :=
  if goHasSuffix s suf then String.mk (s.data.take (s.data.length - suf.data.length)) else s

/-- Go `strings.HasPrefix s pre`. -/
def goHasPrefix (s pre : String) : Bool :=
  pre.data.isPrefixOf s.data

/-- The zone-name normalization every provider operation performs first:
`if strings.HasSuffix(zone, ".") { zone = strings.TrimSuffix(zone, ".") }`. -/
def normalizeZone (zone : String) : String :=
  if goHasSuffix zone "." then goTrimSuffix zone "." else zone

/-- Body of `Provider.GetRecords` after zone normalization. -/
def getRecordsAt (c : Client) (z : String) : Except String (List Record) × List RemoteCall :=
  match c.getRecords z with
  | .error e => (.error e, [.get z])
  | .ok records => (.ok records, [.get z])

/-- `Provider.GetRecords` (provider.go lines 22-31). -/
def GetRecords (c : Client) (zone : String) : Except String (List Record) × List RemoteCall :=
  getRecordsAt c (normalizeZone zone)

/-- Loop body accumulation of `Provider.DeleteRecords` (lines 126-133):
delete each record by its `ID`, abort on first failure. -/
def deleteLoop (c : Client) (z : String) : List Record → Except String (List Record) × List RemoteCall
  | [] => (.ok [], [])
  | record :: rest =>
    match c.deleteRecord z record.ID with
    | .error e => (.error ("failed to delete record: " ++ e), [.delete z record.ID])
    | .ok r =>
      match deleteLoop c z rest with
      | (.error e, calls) => (.error e, .delete z record.ID :: calls)
      | (.ok rs, calls) => (.ok (r :: rs), .delete z record.ID :: calls)

/-- `Provider.DeleteRecords` (provider.go lines 122-135). -/
def DeleteRecords (c : Client) (zone : String) (records : List Record) :
    Except String (List Record) × List RemoteCall :=
  deleteLoop c (normalizeZone zone) records

/-- Loop body of `Provider.SetRecords` (lines 101-117): empty `ID` means
create via `AddRecord`, otherwise update via `UpdateRecord`. -/
def setLoop (c : Client) (z : String) : List Record → Except String (List Record) × List RemoteCall
  | [] => (.ok [], [])
  | record :: rest =>
    if record.ID.length == 0 then
      match c.addRecord z record.recType record.Name record.Value record.TTL with
      | .error e =>
        (.error ("failed to add record: " ++ e),
         [.add z record.recType record.Name record.Value record.TTL])
      | .ok r =>
        match setLoop c z rest with
        | (.error e, calls) =>
          (.error e, .add z record.recType record.Name record.Value record.TTL :: calls)
        | (.ok rs, calls) =>
          (.ok (r :: rs), .add z record.recType record.Name record.Value record.TTL :: calls)
    else
      match c.updateRecord z record.ID record.Name record.Value record.TTL with
      | .error e =>
        (.error ("failed to update record: " ++ e),
         [.update z record.ID record.Name record.Value record.TTL])
      | .ok r =>
        match setLoop c z rest with
        | (.error e, calls) =>
          (.error e, .update z record.ID record.Name record.Value record.TTL :: calls)
        | (.ok rs, calls) =>
          (.ok (r :: rs), .update z record.ID record.Name record.Value record.TTL :: calls)

/-- `Provider.SetRecords` (provider.go lines 96-119). -/
def SetRecords (c : Client) (zone : String) (records : List Record) :
    Except String (List Record) × List RemoteCall :=
  setLoop c (normalizeZone zone) records

/-- The Go `==` test `existing.recType == record.recType && existing.Name == record.Name`
from the scan in `AppendRecords` (line 53). -/
def matchesCandidate (record existing : Record) : Bool :=
  existing.recType == record.recType && existing.Name == record.Name

/-- The scan of `AppendRecords` lines 52-63: walk the existing records in
listing order, keep the first (type, name)-match as `currentRecord`, append
every later match to `recordsToDelete`. -/
def scanLoop (record : Record) (currentRecord : Option Record) (recordsToDelete : List Record) :
    List Record → Option Record × List Record
  | [] => (currentRecord, recordsToDelete)
  | existing :: rest =>
    if matchesCandidate record existing then
      match currentRecord with
      | none => scanLoop record (some existing) recordsToDelete rest
      | some cur => scanLoop record (some cur) (recordsToDelete ++ [existing]) rest
    else
      scanLoop record currentRecord recordsToDelete rest

/-- Fall-through creation of `AppendRecords` (lines 84-89), also used for
non-ACME candidates. -/
def addFallback (c : Client) (z : String) (record : Record) :
    Except String Record × List RemoteCall :=
  match c.addRecord z record.recType record.Name record.Value record.TTL with
  | .error e =>
    (.error ("failed to add record: " ++ e),
     [.add z record.recType record.Name record.Value record.TTL])
  | .ok r => (.ok r, [.add z record.recType record.Name record.Value record.TTL])

/-- Lines 73-82 of `AppendRecords`: update the current record in place if
one was found, otherwise fall through to creation. -/
def acmeAfterDelete (c : Client) (z : String) (record : Record) (currentRecord : Option Record) :
    Except String Record × List RemoteCall :=
  match currentRecord with
  | some cur =>
    match c.updateRecord z cur.ID record.Name record.Value record.TTL with
    | .error e =>
      (.error ("failed to update ACME challenge record: " ++ e),
       [.update z cur.ID record.Name record.Value record.TTL])
    | .ok r => (.ok r, [.update z cur.ID record.Name record.Value record.TTL])
  | none => addFallback c z record

/-- One iteration of the `AppendRecords` loop (lines 40-90) on candidate
`record`; `z` is the already-normalized zone.  Note the nested calls
`p.GetRecords` and `p.DeleteRecords` re-normalize the zone, exactly as the
Go code calls the provider methods rather than the raw client. -/
def appendOne (c : Client) (z : String) (record : Record) :
    Except String Record × List RemoteCall :=
  if goHasPrefix record.Name "_acme-challenge." then
    match GetRecords c z with
    | (.error e, getCalls) => (.error ("failed to get existing records: " ++ e), getCalls)
    | (.ok existingRecords, getCalls) =>
      let scanned := scanLoop record none [] existingRecords
      let currentRecord := scanned.1
      let recordsToDelete := scanned.2
      if recordsToDelete.length > 0 then
        match DeleteRecords c z recordsToDelete with
        | (.error e, delCalls) =>
          (.error ("failed to delete stale ACME challenge records: " ++ e), getCalls ++ delCalls)
        | (.ok _, delCalls) =>
          let after := acmeAfterDelete c z record currentRecord
          (after.1, getCalls ++ delCalls ++ after.2)
      else
        let after := acmeAfterDelete c z record currentRecord
        (after.1, getCalls ++ after.2)
  else
    addFallback c z record

/-- The `AppendRecords` loop (lines 40-91): process candidates in order,
accumulate the created/updated records, abort on first failure. -/
def appendLoop (c : Client) (z : String) : List Record → Except String (List Record) × List RemoteCall
  | [] => (.ok [], [])
  | record :: rest =>
    match appendOne c z record with
    | (.error e, calls) => (.error e, calls)
    | (.ok r, calls) =>
      match appendLoop c z rest with
      | (.error e, calls2) => (.error e, calls ++ calls2)
      | (.ok rs, calls2) => (.ok (r :: rs), calls ++ calls2)

/-- `Provider.AppendRecords` (provider.go lines 34-92). -/
def AppendRecords (c : Client) (zone : String) (records : List Record) :
    Except String (List Record) × List RemoteCall :=
  appendLoop c (normalizeZone zone) records

/-- Discriminates create calls, for call-count statements. -/
def RemoteCall.isAdd : RemoteCall → Bool
  | .add _ _ _ _ _ => true
  | _ => false

/-- Discriminates update calls, for call-count statements. -/
def RemoteCall.isUpdate : RemoteCall → Bool
  | .update _ _ _ _ _ => true
  | _ => false

/-- Discriminates delete calls, for call-count statements. -/
def RemoteCall.isDelete : RemoteCall → Bool
  | .delete _ _ => true
  | _ => false

/-- The remote call `SetRecords` makes for one record: create when the
identifier is empty, update otherwise. -/
def setCallOf (z : String) (r : Record) : RemoteCall :=
  if r.ID.length == 0 then .add z r.recType r.Name r.Value r.TTL
  else .update z r.ID r.Name r.Value r.TTL

/-- Placeholder record used only as the `getD` fallback in indexing
statements. -/
def defaultRecord : Record := ⟨"", "", "", "", 0⟩

/- Concrete records and remote clients used to instantiate the theorems
below on the spec's end-to-end example. -/

def txtOld : Record := ⟨"1", "TXT", "_acme-challenge.example.com", "old", 120⟩

def txtOld2 : Record := ⟨"2", "TXT", "_acme-challenge.example.com", "old2", 120⟩

def txtNew : Record := ⟨"", "TXT", "_acme-challenge.example.com", "new", 120⟩

def plainRec : Record := ⟨"", "TXT", "www.example.com", "hello", 300⟩

def aOld : Record := ⟨"7", "A", "_acme-challenge.example.com", "1.2.3.4", 60⟩

def aNew : Record := ⟨"", "A", "_acme-challenge.example.com", "5.6.7.8", 60⟩

/-- Remote client whose zone listing holds the two duplicate ACME records
of the spec's end-to-end example. -/
def mockTwo : Client where
  getRecords := fun _ => .ok [txtOld, txtOld2]
  addRecord := fun _ t n v ttl => .ok ⟨"9", t, n, v, ttl⟩
  updateRecord := fun _ id n v ttl => .ok ⟨id, "TXT", n, v, ttl⟩
  deleteRecord := fun _ id => .ok ⟨id, "", "", "", 0⟩

/-- Remote client whose zone listing holds exactly one matching record. -/
def mockOne : Client where
  getRecords := fun _ => .ok [txtOld]
  addRecord := fun _ t n v ttl => .ok ⟨"9", t, n, v, ttl⟩
  updateRecord := fun _ id n v ttl => .ok ⟨id, "TXT", n, v, ttl⟩
  deleteRecord := fun _ id => .ok ⟨id, "", "", "", 0⟩

/-- Remote client with an empty zone listing. -/
def mockNone : Client where
  getRecords := fun _ => .ok []
  addRecord := fun _ t n v ttl => .ok ⟨"9", t, n, v, ttl⟩
  updateRecord := fun _ id n v ttl => .ok ⟨id, "TXT", n, v, ttl⟩
  deleteRecord := fun _ id => .ok ⟨id, "", "", "", 0⟩

/-- Remote client whose zone listing holds an A record under the ACME
name. -/
def mockA : Client where
  getRecords := fun _ => .ok [aOld]
  addRecord := fun _ t n v ttl => .ok ⟨"9", t, n, v, ttl⟩
  updateRecord := fun _ id n v ttl => .ok ⟨id, "A", n, v, ttl⟩
  deleteRecord := fun _ id => .ok ⟨id, "", "", "", 0⟩

/-- Remote client whose zone listing fails. -/
def mockGetFail : Client where
  getRecords := fun _ => .error "boom"
  addRecord := fun _ t n v ttl => .ok ⟨"9", t, n, v, ttl⟩
  updateRecord := fun _ id n v ttl => .ok ⟨id, "TXT", n, v, ttl⟩
  deleteRecord := fun _ id => .ok ⟨id, "", "", "", 0⟩

/-- Remote client whose record creation fails. -/
def mockAddFail : Client where
  getRecords := fun _ => .ok []
  addRecord := fun _ _ _ _ _ => .error "addboom"
  updateRecord := fun _ id n v ttl => .ok ⟨id, "TXT", n, v, ttl⟩
  deleteRecord := fun _ id => .ok ⟨id, "", "", "", 0⟩

/-- Remote client whose record update fails (listing holds one matching
record). -/
def mockUpdateFail : Client where
  getRecords := fun _ => .ok [txtOld]
  addRecord := fun _ t n v ttl => .ok ⟨"9", t, n, v, ttl⟩
  updateRecord := fun _ _ _ _ _ => .error "updboom"
  deleteRecord := fun _ id => .ok ⟨id, "", "", "", 0⟩

/-- Remote client whose record deletion fails (listing holds two matching
records, so the stale-deletion path is taken). -/
def mockDeleteFail : Client where
  getRecords := fun _ => .ok [txtOld, txtOld2]
  addRecord := fun _ t n v ttl => .ok ⟨"9", t, n, v, ttl⟩
  updateRecord := fun _ id n v ttl => .ok ⟨id, "TXT", n, v, ttl⟩
  deleteRecord := fun _ _ => .error "delboom"

/-- Remote client whose creation succeeds but whose update fails, to
exhibit a mutation applied before a later failure. -/
def mockSetFail : Client where
  getRecords := fun _ => .ok []
  addRecord := fun _ t n v ttl => .ok ⟨"9", t, n, v, ttl⟩
  updateRecord := fun _ _ _ _ _ => .error "updboom2"
  deleteRecord := fun _ id => .ok ⟨id, "", "", "", 0⟩

/-! Helper lemmas about the loops. -/

theorem normalizeZone_of_no_dot (z : String) (h : goHasSuffix z "." = false) :
    normalizeZone z = z := by
  simp [normalizeZone, h]

theorem normalizeZone_append_dot (z : String) : normalizeZone (z ++ ".") = z := by
  have hsuf : goHasSuffix (z ++ ".") "." = true := by
    simp [goHasSuffix, String.data_append]
  simp [normalizeZone, hsuf, goTrimSuffix, String.data_append]

theorem scanLoop_some (record cur : Record) :
    ∀ (l : List Record) (dels : List Record),
      scanLoop record (some cur) dels l = (some cur, dels ++ l.filter (matchesCandidate record))
  | [], dels => by simp [scanLoop]
  | existing :: rest, dels => by
    by_cases h : matchesCandidate record existing
    · simp [scanLoop, h, List.filter_cons, scanLoop_some record cur rest]
    · simp [scanLoop, h, List.filter_cons, scanLoop_some record cur rest]

theorem scanLoop_none (record : Record) :
    ∀ (l : List Record) (dels : List Record),
      scanLoop record none dels l =
        match l.filter (matchesCandidate record) with
        | [] => (none, dels)
        | f :: rest => (some f, dels ++ rest)
  | [], dels => by simp [scanLoop]
  | existing :: rest, dels => by
    by_cases h : matchesCandidate record existing
    · simp [scanLoop, h, List.filter_cons, scanLoop_some]
    · simp [scanLoop, h, List.filter_cons, scanLoop_none record rest dels]

theorem scanLoop_of_filter_nil (record : Record) (l : List Record)
    (h : l.filter (matchesCandidate record) = []) :
    scanLoop record none [] l = (none, []) := by
  rw [scanLoop_none, h]

theorem scanLoop_of_filter_cons (record first : Record) (l rest : List Record)
    (h : l.filter (matchesCandidate record) = first :: rest) :
    scanLoop record none [] l = (some first, rest) := by
  rw [scanLoop_none, h]
  simp

theorem deleteLoop_map (c : Client) (z : String) (f : Record → Record) :
    ∀ l : List Record, (∀ r ∈ l, c.deleteRecord z r.ID = .ok (f r)) →
      deleteLoop c z l = (.ok (l.map f), l.map fun r => RemoteCall.delete z r.ID)
  | [], _ => by simp [deleteLoop]
  | record :: rest, h => by
    have hr := h record (by simp)
    have ih := deleteLoop_map c z f rest (fun r hm => h r (by simp [hm]))
    simp [deleteLoop, hr, ih]

theorem setLoop_map (c : Client) (z : String) (f : Record → Record) :
    ∀ l : List Record,
      (∀ r ∈ l, if r.ID.length == 0
        then c.addRecord z r.recType r.Name r.Value r.TTL = .ok (f r)
        else c.updateRecord z r.ID r.Name r.Value r.TTL = .ok (f r)) →
      setLoop c z l = (.ok (l.map f), l.map (setCallOf z))
  | [], _ => by simp [setLoop]
  | record :: rest, h => by
    have hr := h record (by simp)
    have ih := setLoop_map c z f rest (fun r hm => h r (by simp [hm]))
    by_cases hid : record.ID.length == 0
    · rw [if_pos hid] at hr
      simp [setLoop, hid, hr, ih, setCallOf]
    · rw [if_neg hid] at hr
      simp [setLoop, hid, hr, ih, setCallOf]

theorem appendOne_not_acme (c : Client) (z : String) (record : Record)
    (h : goHasPrefix record.Name "_acme-challenge." = false) :
    appendOne c z record = addFallback c z record := by
  simp [appendOne, h]

theorem appendOne_acme_get_error (c : Client) (z e : String) (record : Record)
    (h : goHasPrefix record.Name "_acme-challenge." = true)
    (hget : c.getRecords (normalizeZone z) = .error e) :
    appendOne c z record =
      (.error ("failed to get existing records: " ++ e), [.get (normalizeZone z)]) := by
  simp [appendOne, h, GetRecords, getRecordsAt, hget]

theorem appendOne_acme_no_match (c : Client) (z : String) (record : Record) (ex : List Record)
    (h : goHasPrefix record.Name "_acme-challenge." = true)
    (hget : c.getRecords (normalizeZone z) = .ok ex)
    (hfilter : ex.filter (matchesCandidate record) = []) :
    appendOne c z record =
      ((addFallback c z record).1, .get (normalizeZone z) :: (addFallback c z record).2) := by
  simp [appendOne, h, GetRecords, getRecordsAt, hget,
    scanLoop_of_filter_nil record ex hfilter, acmeAfterDelete]

theorem appendOne_acme_one_match (c : Client) (z : String) (record first u : Record)
    (ex : List Record)
    (h : goHasPrefix record.Name "_acme-challenge." = true)
    (hget : c.getRecords (normalizeZone z) = .ok ex)
    (hfilter : ex.filter (matchesCandidate record) = [first])
    (hupd : c.updateRecord z first.ID record.Name record.Value record.TTL = .ok u) :
    appendOne c z record =
      (.ok u, [.get (normalizeZone z),
               .update z first.ID record.Name record.Value record.TTL]) := by
  simp [appendOne, h, GetRecords, getRecordsAt, hget,
    scanLoop_of_filter_cons record first ex [] hfilter, acmeAfterDelete, hupd]

theorem appendOne_acme_many_matches (c : Client) (z : String) (record first u : Record)
    (ex rest : List Record) (f : Record → Record)
    (h : goHasPrefix record.Name "_acme-challenge." = true)
    (hget : c.getRecords (normalizeZone z) = .ok ex)
    (hfilter : ex.filter (matchesCandidate record) = first :: rest)
    (hrest : rest ≠ [])
    (hdel : ∀ r ∈ rest, c.deleteRecord (normalizeZone z) r.ID = .ok (f r))
    (hupd : c.updateRecord z first.ID record.Name record.Value record.TTL = .ok u) :
    appendOne c z record =
      (.ok u, .get (normalizeZone z) ::
        (rest.map fun r => RemoteCall.delete (normalizeZone z) r.ID) ++
        [.update z first.ID record.Name record.Value record.TTL]) := by
  have hlen : rest.length > 0 := List.length_pos.mpr hrest
  simp [appendOne, h, GetRecords, getRecordsAt, hget,
    scanLoop_of_filter_cons record first ex rest hfilter, hlen,
    DeleteRecords, deleteLoop_map c (normalizeZone z) f rest hdel,
    acmeAfterDelete, hupd]

theorem appendOne_acme_update_error (c : Client) (z e : String) (record first : Record)
    (ex : List Record)
    (h : goHasPrefix record.Name "_acme-challenge." = true)
    (hget : c.getRecords (normalizeZone z) = .ok ex)
    (hfilter : ex.filter (matchesCandidate record) = [first])
    (hupd : c.updateRecord z first.ID record.Name record.Value record.TTL = .error e) :
    appendOne c z record =
      (.error ("failed to update ACME challenge record: " ++ e),
       [.get (normalizeZone z),
        .update z first.ID record.Name record.Value record.TTL]) := by
  simp [appendOne, h, GetRecords, getRecordsAt, hget,
    scanLoop_of_filter_cons record first ex [] hfilter, acmeAfterDelete, hupd]

theorem appendOne_acme_delete_error (c : Client) (z e : String) (record first stale : Record)
    (ex rest : List Record)
    (h : goHasPrefix record.Name "_acme-challenge." = true)
    (hget : c.getRecords (normalizeZone z) = .ok ex)
    (hfilter : ex.filter (matchesCandidate record) = first :: stale :: rest)
    (hdel : c.deleteRecord (normalizeZone z) stale.ID = .error e) :
    appendOne c z record =
      (.error ("failed to delete stale ACME challenge records: failed to delete record: " ++ e),
       [.get (normalizeZone z), .delete (normalizeZone z) stale.ID]) := by
  simp [appendOne, h, GetRecords, getRecordsAt, hget,
    scanLoop_of_filter_cons record first ex (stale :: rest) hfilter,
    DeleteRecords, deleteLoop, hdel]
  rw [← String.append_assoc]
  congr 1

theorem appendLoop_ok_spec (c : Client) (z : String) :
    ∀ (records out : List Record),
      (appendLoop c z records).1 = .ok out →
      out.length = records.length ∧
        ∀ i, i < records.length →
          ∃ calls, appendOne c z (records.getD i defaultRecord) =
            (.ok (out.getD i defaultRecord), calls)
  | [], out, h => by
    simp [appendLoop] at h
    subst h
    exact ⟨rfl, fun i hi => absurd hi (by simp)⟩
  | record :: rest, out, h => by
    rcases hA : appendOne c z record with ⟨res, calls⟩
    cases res with
    | error e => simp [appendLoop, hA] at h
    | ok r =>
      rcases hB : appendLoop c z rest with ⟨res2, calls2⟩
      cases res2 with
      | error e => simp [appendLoop, hA, hB] at h
      | ok rs =>
        have ih := appendLoop_ok_spec c z rest rs (by simp [hB])
        simp [appendLoop, hA, hB] at h
        subst h
        refine ⟨by simp [ih.1], fun i hi => ?_⟩
        cases i with
        | zero => exact ⟨calls, by simpa using hA⟩
        | succ j =>
          have := ih.2 j (by simpa using hi)
          simpa using this

/-- C1: appending an ACME-challenge candidate when the zone listing holds
several records with the same (type, name) performs exactly one update call,
on the first match in listing order, one delete call for each later match,
and no create call; the result is the single record returned by the update. -/
theorem acme_append_duplicates_converge (c : Client) (zone : String)
    (record first u : Record) (ex rest : List Record) (f : Record → Record)
    (hacme : goHasPrefix record.Name "_acme-challenge." = true)
    (hget : c.getRecords (normalizeZone (normalizeZone zone)) = .ok ex)
    (hfilter : ex.filter (matchesCandidate record) = first :: rest)
    (hrest : rest ≠ [])
    (hdel : ∀ r ∈ rest,
      c.deleteRecord (normalizeZone (normalizeZone zone)) r.ID = .ok (f r))
    (hupd : c.updateRecord (normalizeZone zone) first.ID record.Name record.Value
      record.TTL = .ok u) :
    AppendRecords c zone [record] =
      (.ok [u], .get (normalizeZone (normalizeZone zone)) ::
        (rest.map fun r => RemoteCall.delete (normalizeZone (normalizeZone zone)) r.ID) ++
        [.update (normalizeZone zone) first.ID record.Name record.Value record.TTL]) := by
  have h1 := appendOne_acme_many_matches c (normalizeZone zone) record first u ex rest f
    hacme hget hfilter hrest hdel hupd
  simp [AppendRecords, appendLoop, h1]

theorem acme_append_duplicates_converge_check :
    AppendRecords mockTwo "example.com" [txtNew] =
      (.ok [⟨"1", "TXT", "_acme-challenge.example.com", "new", 120⟩],
       [.get "example.com", .delete "example.com" "2",
        .update "example.com" "1" "_acme-challenge.example.com" "new" 120]) :=
  acme_append_duplicates_converge mockTwo "example.com" txtNew txtOld
    ⟨"1", "TXT", "_acme-challenge.example.com", "new", 120⟩ [txtOld, txtOld2] [txtOld2]
    (fun r => ⟨r.ID, "", "", "", 0⟩) (by decide) rfl (by decide) (by decide) (by decide) rfl

/-- C2: appending an ACME-challenge candidate when the zone listing holds
exactly one record with the same (type, name) performs no create and no
delete call, and exactly one update call keyed by that record's identifier;
the record returned by the update is the candidate's result entry. -/
theorem acme_append_single_match_updates (c : Client) (zone : String)
    (record first u : Record) (ex : List Record)
    (hacme : goHasPrefix record.Name "_acme-challenge." = true)
    (hget : c.getRecords (normalizeZone (normalizeZone zone)) = .ok ex)
    (hfilter : ex.filter (matchesCandidate record) = [first])
    (hupd : c.updateRecord (normalizeZone zone) first.ID record.Name record.Value
      record.TTL = .ok u) :
    AppendRecords c zone [record] =
      (.ok [u], [.get (normalizeZone (normalizeZone zone)),
                 .update (normalizeZone zone) first.ID record.Name record.Value record.TTL]) := by
  have h1 := appendOne_acme_one_match c (normalizeZone zone) record first u ex
    hacme hget hfilter hupd
  simp [AppendRecords, appendLoop, h1]

theorem acme_append_single_match_updates_check :
    AppendRecords mockOne "example.com" [txtNew] =
      (.ok [⟨"1", "TXT", "_acme-challenge.example.com", "new", 120⟩],
       [.get "example.com",
        .update "example.com" "1" "_acme-challenge.example.com" "new" 120]) :=
  acme_append_single_match_updates mockOne "example.com" txtNew txtOld
    ⟨"1", "TXT", "_acme-challenge.example.com", "new", 120⟩ [txtOld]
    (by decide) rfl (by decide) rfl

/-- C3: a candidate without the ACME name or with no (type, name) match in
the listing is created: exactly one create call carrying the candidate's
type, name, value and TTL, no update and no delete call, and the created
record is the candidate's result entry. -/
theorem append_plain_creates (c : Client) (zone : String) (record u : Record)
    (hcase : goHasPrefix record.Name "_acme-challenge." = false ∨
      ∃ ex, c.getRecords (normalizeZone (normalizeZone zone)) = .ok ex ∧
        ex.filter (matchesCandidate record) = [])
    (hadd : c.addRecord (normalizeZone zone) record.recType record.Name record.Value
      record.TTL = .ok u) :
    (AppendRecords c zone [record]).1 = .ok [u] ∧
    (AppendRecords c zone [record]).2.filter RemoteCall.isAdd =
      [.add (normalizeZone zone) record.recType record.Name record.Value record.TTL] ∧
    (AppendRecords c zone [record]).2.filter RemoteCall.isUpdate = [] ∧
    (AppendRecords c zone [record]).2.filter RemoteCall.isDelete = [] := by
  cases hb : goHasPrefix record.Name "_acme-challenge." with
  | false =>
    have h1 := appendOne_not_acme c (normalizeZone zone) record hb
    simp [AppendRecords, appendLoop, h1, addFallback, hadd,
      RemoteCall.isAdd, RemoteCall.isUpdate, RemoteCall.isDelete]
  | true =>
    rcases hcase with hfalse | ⟨ex, hget, hfil⟩
    · rw [hb] at hfalse; cases hfalse
    · have h1 := appendOne_acme_no_match c (normalizeZone zone) record ex hb hget hfil
      simp [AppendRecords, appendLoop, h1, addFallback, hadd,
        RemoteCall.isAdd, RemoteCall.isUpdate, RemoteCall.isDelete]

theorem append_plain_creates_check :
    (AppendRecords mockNone "example.com" [txtNew]).1 =
      .ok [⟨"9", "TXT", "_acme-challenge.example.com", "new", 120⟩] ∧
    (AppendRecords mockNone "example.com" [txtNew]).2.filter RemoteCall.isAdd =
      [.add "example.com" "TXT" "_acme-challenge.example.com" "new" 120] ∧
    (AppendRecords mockNone "example.com" [txtNew]).2.filter RemoteCall.isUpdate = [] ∧
    (AppendRecords mockNone "example.com" [txtNew]).2.filter RemoteCall.isDelete = [] :=
  append_plain_creates mockNone "example.com" txtNew
    ⟨"9", "TXT", "_acme-challenge.example.com", "new", 120⟩
    (Or.inr ⟨[], rfl, rfl⟩) rfl


/-- C4: a successful Append returns exactly one record per candidate, in
candidate order: entry i of the result is the record produced by
processing candidate i. -/
theorem append_result_per_candidate (c : Client) (zone : String)
    (records out : List Record)
    (h : (AppendRecords c zone records).1 = .ok out) :
    out.length = records.length ∧
      ∀ i, i < records.length →
        ∃ calls, appendOne c (normalizeZone zone) (records.getD i defaultRecord) =
          (.ok (out.getD i defaultRecord), calls) :=
  appendLoop_ok_spec c (normalizeZone zone) records out h

theorem append_result_per_candidate_check :
    ([⟨"1", "TXT", "_acme-challenge.example.com", "new", 120⟩] : List Record).length =
      [txtNew].length ∧
    ∀ i, i < [txtNew].length →
      ∃ calls, appendOne mockTwo (normalizeZone "example.com") ([txtNew].getD i defaultRecord) =
        (.ok (([⟨"1", "TXT", "_acme-challenge.example.com", "new", 120⟩] :
          List Record).getD i defaultRecord), calls) :=
  append_result_per_candidate mockTwo "example.com" [txtNew]
    [⟨"1", "TXT", "_acme-challenge.example.com", "new", 120⟩] rfl

/-- C5: a zone given with a trailing root-label dot behaves identically,
for all four operations, to the same zone without the dot: same remote
calls, same result and error. -/
theorem trailing_dot_equivalent (c : Client) (z : String) (records : List Record)
    (h : goHasSuffix z "." = false) :
    GetRecords c (z ++ ".") = GetRecords c z ∧
    AppendRecords c (z ++ ".") records = AppendRecords c z records ∧
    SetRecords c (z ++ ".") records = SetRecords c z records ∧
    DeleteRecords c (z ++ ".") records = DeleteRecords c z records := by
  simp only [GetRecords, AppendRecords, SetRecords, DeleteRecords,
    normalizeZone_append_dot, normalizeZone_of_no_dot z h]
  simp

theorem trailing_dot_equivalent_check :
    GetRecords mockTwo ("example.com" ++ ".") = GetRecords mockTwo "example.com" ∧
    AppendRecords mockTwo ("example.com" ++ ".") [txtNew] =
      AppendRecords mockTwo "example.com" [txtNew] ∧
    SetRecords mockTwo ("example.com" ++ ".") [txtNew] =
      SetRecords mockTwo "example.com" [txtNew] ∧
    DeleteRecords mockTwo ("example.com" ++ ".") [txtNew] =
      DeleteRecords mockTwo "example.com" [txtNew] :=
  trailing_dot_equivalent mockTwo "example.com" [txtNew] (by decide)

/-- C6: Set creates each record carrying no identifier and updates each
record keyed by its non-empty identifier — one remote call per record,
no ACME special-casing — and the records returned by the remote calls form
the result in batch order. -/
theorem set_records_create_or_update (c : Client) (zone : String)
    (records : List Record) (f : Record → Record)
    (h : ∀ r ∈ records, if r.ID.length == 0
      then c.addRecord (normalizeZone zone) r.recType r.Name r.Value r.TTL = .ok (f r)
      else c.updateRecord (normalizeZone zone) r.ID r.Name r.Value r.TTL = .ok (f r)) :
    SetRecords c zone records =
      (.ok (records.map f), records.map (setCallOf (normalizeZone zone))) := by
  simpa [SetRecords] using setLoop_map c (normalizeZone zone) f records h

theorem set_records_create_or_update_check :
    SetRecords mockOne "example.com" [txtNew, txtOld] =
      (.ok [⟨"9", "TXT", "_acme-challenge.example.com", "new", 120⟩,
            ⟨"1", "TXT", "_acme-challenge.example.com", "old", 120⟩],
       [.add "example.com" "TXT" "_acme-challenge.example.com" "new" 120,
        .update "example.com" "1" "_acme-challenge.example.com" "old" 120]) :=
  set_records_create_or_update mockOne "example.com" [txtNew, txtOld]
    (fun r => if r.ID.length == 0
      then ⟨"9", r.recType, r.Name, r.Value, r.TTL⟩
      else ⟨r.ID, "TXT", r.Name, r.Value, r.TTL⟩) (by decide)

/-- C7: Delete issues exactly one delete call per batch record, keyed by
the record's identifier, sequentially in batch order; the confirmations
returned by the remote client form the result in batch order. -/
theorem delete_records_per_record (c : Client) (zone : String)
    (records : List Record) (f : Record → Record)
    (h : ∀ r ∈ records, c.deleteRecord (normalizeZone zone) r.ID = .ok (f r)) :
    DeleteRecords c zone records =
      (.ok (records.map f),
       records.map fun r => RemoteCall.delete (normalizeZone zone) r.ID) := by
  simpa [DeleteRecords] using deleteLoop_map c (normalizeZone zone) f records h

theorem delete_records_per_record_check :
    DeleteRecords mockOne "example.com" [txtOld, txtOld2] =
      (.ok [⟨"1", "", "", "", 0⟩, ⟨"2", "", "", "", 0⟩],
       [.delete "example.com" "1", .delete "example.com" "2"]) :=
  delete_records_per_record mockOne "example.com" [txtOld, txtOld2]
    (fun r => ⟨r.ID, "", "", "", 0⟩) (by decide)



/-- C8: the first failing remote sub-operation aborts the whole call with
no record list and an error wrapping the cause, names the failing
sub-operation, makes no further remote calls for the rest of the batch, and
does not undo mutations already applied.  The six conjuncts cover: listing
failure during an ACME append (nothing attempted for that candidate or the
rest of the batch), create failure, ACME update failure, stale-deletion
failure, Set update failure after an applied creation, Delete failure. -/
theorem first_failure_short_circuits (zone : String)
    (cg : Client) (ra : Record) (restA : List Record) (eA : String)
    (hA1 : goHasPrefix ra.Name "_acme-challenge." = true)
    (hA2 : cg.getRecords (normalizeZone (normalizeZone zone)) = .error eA)
    (ca : Client) (rb : Record) (restB : List Record) (eB : String)
    (hB1 : goHasPrefix rb.Name "_acme-challenge." = false)
    (hB2 : ca.addRecord (normalizeZone zone) rb.recType rb.Name rb.Value rb.TTL = .error eB)
    (cu : Client) (rc firstC : Record) (exC restC : List Record) (eC : String)
    (hC1 : goHasPrefix rc.Name "_acme-challenge." = true)
    (hC2 : cu.getRecords (normalizeZone (normalizeZone zone)) = .ok exC)
    (hC3 : exC.filter (matchesCandidate rc) = [firstC])
    (hC4 : cu.updateRecord (normalizeZone zone) firstC.ID rc.Name rc.Value rc.TTL = .error eC)
    (cstale : Client) (rd firstD staleD : Record) (exD restD0 restD : List Record) (eD : String)
    (hD1 : goHasPrefix rd.Name "_acme-challenge." = true)
    (hD2 : cstale.getRecords (normalizeZone (normalizeZone zone)) = .ok exD)
    (hD3 : exD.filter (matchesCandidate rd) = firstD :: staleD :: restD0)
    (hD4 : cstale.deleteRecord (normalizeZone (normalizeZone zone)) staleD.ID = .error eD)
    (cset : Client) (re1 re2 ue1 : Record) (restE : List Record) (eE : String)
    (hE1 : (re1.ID.length == 0) = true)
    (hE2 : (re2.ID.length == 0) = false)
    (hE3 : cset.addRecord (normalizeZone zone) re1.recType re1.Name re1.Value re1.TTL = .ok ue1)
    (hE4 : cset.updateRecord (normalizeZone zone) re2.ID re2.Name re2.Value re2.TTL = .error eE)
    (cdel : Client) (rf : Record) (restF : List Record) (eF : String)
    (hF : cdel.deleteRecord (normalizeZone zone) rf.ID = .error eF) :
    AppendRecords cg zone (ra :: restA) =
      (.error ("failed to get existing records: " ++ eA),
       [.get (normalizeZone (normalizeZone zone))]) ∧
    AppendRecords ca zone (rb :: restB) =
      (.error ("failed to add record: " ++ eB),
       [.add (normalizeZone zone) rb.recType rb.Name rb.Value rb.TTL]) ∧
    AppendRecords cu zone (rc :: restC) =
      (.error ("failed to update ACME challenge record: " ++ eC),
       [.get (normalizeZone (normalizeZone zone)),
        .update (normalizeZone zone) firstC.ID rc.Name rc.Value rc.TTL]) ∧
    AppendRecords cstale zone (rd :: restD) =
      (.error ("failed to delete stale ACME challenge records: failed to delete record: " ++ eD),
       [.get (normalizeZone (normalizeZone zone)),
        .delete (normalizeZone (normalizeZone zone)) staleD.ID]) ∧
    SetRecords cset zone (re1 :: re2 :: restE) =
      (.error ("failed to update record: " ++ eE),
       [.add (normalizeZone zone) re1.recType re1.Name re1.Value re1.TTL,
        .update (normalizeZone zone) re2.ID re2.Name re2.Value re2.TTL]) ∧
    DeleteRecords cdel zone (rf :: restF) =
      (.error ("failed to delete record: " ++ eF), [.delete (normalizeZone zone) rf.ID]) := by
  refine ⟨?_, ?_, ?_, ?_, ?_, ?_⟩
  · have hh := appendOne_acme_get_error cg (normalizeZone zone) eA ra hA1 hA2
    simp [AppendRecords, appendLoop, hh]
  · have hh := appendOne_not_acme ca (normalizeZone zone) rb hB1
    simp [AppendRecords, appendLoop, hh, addFallback, hB2]
  · have hh := appendOne_acme_update_error cu (normalizeZone zone) eC rc firstC exC
      hC1 hC2 hC3 hC4
    simp [AppendRecords, appendLoop, hh]
  · have hh := appendOne_acme_delete_error cstale (normalizeZone zone) eD rd firstD staleD
      exD restD0 hD1 hD2 hD3 hD4
    simp [AppendRecords, appendLoop, hh]
  · simp [SetRecords, setLoop, hE1, hE2, hE3, hE4]
  · simp [DeleteRecords, deleteLoop, hF]

theorem first_failure_short_circuits_check :
    AppendRecords mockGetFail "example.com" [txtNew, plainRec] =
      (.error "failed to get existing records: boom", [.get "example.com"]) ∧
    AppendRecords mockAddFail "example.com" [plainRec, txtNew] =
      (.error "failed to add record: addboom",
       [.add "example.com" "TXT" "www.example.com" "hello" 300]) ∧
    AppendRecords mockUpdateFail "example.com" [txtNew] =
      (.error "failed to update ACME challenge record: updboom",
       [.get "example.com",
        .update "example.com" "1" "_acme-challenge.example.com" "new" 120]) ∧
    AppendRecords mockDeleteFail "example.com" [txtNew] =
      (.error "failed to delete stale ACME challenge records: failed to delete record: delboom",
       [.get "example.com", .delete "example.com" "2"]) ∧
    SetRecords mockSetFail "example.com" [txtNew, txtOld] =
      (.error "failed to update record: updboom2",
       [.add "example.com" "TXT" "_acme-challenge.example.com" "new" 120,
        .update "example.com" "1" "_acme-challenge.example.com" "old" 120]) ∧
    DeleteRecords mockDeleteFail "example.com" [txtOld, txtOld2] =
      (.error "failed to delete record: delboom", [.delete "example.com" "1"]) :=
  first_failure_short_circuits "example.com"
    mockGetFail txtNew [plainRec] "boom" (by decide) rfl
    mockAddFail plainRec [txtNew] "addboom" (by decide) rfl
    mockUpdateFail txtNew txtOld [txtOld] [] "updboom" (by decide) rfl (by decide) rfl
    mockDeleteFail txtNew txtOld txtOld2 [txtOld, txtOld2] [] [] "delboom"
      (by decide) rfl (by decide) rfl
    mockSetFail txtNew txtOld ⟨"9", "TXT", "_acme-challenge.example.com", "new", 120⟩ []
      "updboom2" (by decide) (by decide) rfl rfl
    mockDeleteFail txtOld [txtOld2] "delboom" rfl

/-- C9: Get normalizes the zone name (trailing dot stripped), makes exactly
one listing call, and returns its records verbatim on success or the
wrapped error and no records on failure. -/
theorem get_records_passthrough (c1 c2 : Client) (zone1 zone2 : String)
    (rs : List Record) (e : String)
    (h1 : c1.getRecords (normalizeZone zone1) = .ok rs)
    (h2 : c2.getRecords (normalizeZone zone2) = .error e) :
    GetRecords c1 zone1 = (.ok rs, [.get (normalizeZone zone1)]) ∧
    GetRecords c2 zone2 = (.error e, [.get (normalizeZone zone2)]) := by
  constructor <;> simp [GetRecords, getRecordsAt, h1, h2]

theorem get_records_passthrough_check :
    GetRecords mockTwo "example.com." = (.ok [txtOld, txtOld2], [.get "example.com"]) ∧
    GetRecords mockGetFail "example.com." = (.error "boom", [.get "example.com"]) :=
  get_records_passthrough mockTwo mockGetFail "example.com." "example.com."
    [txtOld, txtOld2] "boom" rfl rfl

/-- C10: the reconciliation branch is selected solely by the
"_acme-challenge." name prefix: a candidate of any record type whose name
carries the prefix is reconciled against the listing's records of the same
(type, name), while a candidate (TXT or otherwise) without the prefix is
created directly, with no listing call. -/
theorem acme_branch_selected_by_name (c1 c2 : Client) (zone : String)
    (record1 first u1 record2 u2 : Record) (ex : List Record)
    (h1 : goHasPrefix record1.Name "_acme-challenge." = true)
    (hget : c1.getRecords (normalizeZone (normalizeZone zone)) = .ok ex)
    (hfil : ex.filter (matchesCandidate record1) = [first])
    (hupd : c1.updateRecord (normalizeZone zone) first.ID record1.Name record1.Value
      record1.TTL = .ok u1)
    (h2 : goHasPrefix record2.Name "_acme-challenge." = false)
    (hadd : c2.addRecord (normalizeZone zone) record2.recType record2.Name record2.Value
      record2.TTL = .ok u2) :
    AppendRecords c1 zone [record1] =
      (.ok [u1], [.get (normalizeZone (normalizeZone zone)),
                  .update (normalizeZone zone) first.ID record1.Name record1.Value record1.TTL]) ∧
    AppendRecords c2 zone [record2] =
      (.ok [u2], [.add (normalizeZone zone) record2.recType record2.Name record2.Value
                    record2.TTL]) := by
  constructor
  · have hh := appendOne_acme_one_match c1 (normalizeZone zone) record1 first u1 ex
      h1 hget hfil hupd
    simp [AppendRecords, appendLoop, hh]
  · have hh := appendOne_not_acme c2 (normalizeZone zone) record2 h2
    simp [AppendRecords, appendLoop, hh, addFallback, hadd]

theorem acme_branch_selected_by_name_check :
    AppendRecords mockA "example.com" [aNew] =
      (.ok [⟨"7", "A", "_acme-challenge.example.com", "5.6.7.8", 60⟩],
       [.get "example.com",
        .update "example.com" "7" "_acme-challenge.example.com" "5.6.7.8" 60]) ∧
    AppendRecords mockNone "example.com" [plainRec] =
      (.ok [⟨"9", "TXT", "www.example.com", "hello", 300⟩],
       [.add "example.com" "TXT" "www.example.com" "hello" 300]) :=
  acme_branch_selected_by_name mockA mockNone "example.com" aNew aOld
    ⟨"7", "A", "_acme-challenge.example.com", "5.6.7.8", 60⟩ plainRec
    ⟨"9", "TXT", "www.example.com", "hello", 300⟩ [aOld]
    (by decide) rfl (by decide) rfl (by decide) rfl

end Cloudns
